import Mathlib

/-
  Verification of the luagcrypt binding layer (src/luagcrypt.c).

  The C file is a thin Lua binding over the libgcrypt provider.  The
  cryptographic provider itself is external to the repository; it is modelled
  abstractly as a structure of functions (one field per provider entry point
  the C code calls), while every `lgcrypt_*` function of the C file is
  translated into a pure Lean function over an explicit handle state.

  Memory model: a heap buffer is a `List Nat` of byte values; a possibly-NULL
  native handle is an `Option Ctx`.  Writing provider output into a
  fixed-size allocation keeps the size of the region (function `overwrite`).
  Mutation of the pointee of a non-NULL handle is modelled by state passing
  through the `lift*` helpers, which preserve NULL-ness exactly as C pointer
  assignment semantics do: no wrapper method ever writes the handle pointer
  field itself.  Passing a NULL handle to the provider is undefined behaviour
  in C; it is modelled by the abstract `nullStatus` field with no output
  written, and no theorem below depends on that branch.
-/

namespace Luagcrypt

/-- Byte strings: Lua strings and C buffers, as lists of byte values. -/
abbrev Bytes := List Nat

/-- libgcrypt status codes (gcry_error_t); 0 is GPG_ERR_NO_ERROR. -/
abbrev GcryErr := Nat

/-- The success status code. -/
def GPG_ERR_NO_ERROR : GcryErr := 0

/-- Error taxonomy of the binding (spec section 7).  Each luaL_error site of
src/luagcrypt.c raises exactly one of these, carrying its message text. -/
inductive Err where
  | providerError (msg : String)
  | resourceError (msg : String)
  | usageError (msg : String)
  | internalError (msg : String)
  deriving Repr, DecidableEq

/-- Contents of a fixed-size memory region after writing `w` at its start:
the region keeps its size `buf.length`; bytes beyond the write keep their
previous values. -/
def overwrite (buf w : Bytes) : Bytes :=
  (w ++ buf.drop w.length).take buf.length

/-- The abstract cipher side of the provider: one field per libgcrypt entry
point called by the cipher wrapper.  `Ctx` is the pointee state of a
non-NULL gcry_cipher_hd_t; mutating calls return the updated pointee.
`cipher_encrypt`/`cipher_decrypt` return (status, updated pointee, bytes the
provider wrote into the output region). -/
structure CipherProvider (Ctx : Type) where
  cipher_open : Int → Int → Except GcryErr Ctx
  cipher_setkey : Ctx → Bytes → GcryErr × Ctx
  cipher_setiv : Ctx → Bytes → GcryErr × Ctx
  cipher_reset : Ctx → GcryErr × Ctx
  cipher_encrypt : Ctx → Bytes → GcryErr × Ctx × Bytes
  cipher_decrypt : Ctx → Bytes → GcryErr × Ctx × Bytes
  nullStatus : GcryErr

/-- The abstract digest side of the provider.  Query entry points take the
raw, possibly NULL, handle value directly; mutating entry points act on the
pointee of a non-NULL handle. -/
structure HashProvider (Hctx : Type) where
  md_open : Int → Int → Except GcryErr Hctx
  md_setkey : Hctx → Bytes → GcryErr × Hctx
  md_reset : Hctx → Hctx
  md_write : Hctx → Bytes → Hctx
  md_read : Option Hctx → Int → Option Bytes
  md_get_algo : Option Hctx → Int
  md_is_enabled : Option Hctx → Int → Bool
  md_get_algo_dlen : Int → Nat
  nullStatus : GcryErr

/-- Lift a status-returning mutating provider call to a possibly-NULL handle:
a non-NULL handle keeps being non-NULL (C never rewrites the pointer), a NULL
handle stays NULL and yields the abstract NULL-call status. -/
def liftStatus {Ctx : Type} (nullStatus : GcryErr) (f : Ctx → GcryErr × Ctx) :
    Option Ctx → GcryErr × Option Ctx
  | some c => ((f c).1, some (f c).2)
  | none => (nullStatus, none)

/-- Lift an output-writing provider call (encrypt/decrypt) to a possibly-NULL
handle; on a NULL handle nothing is written. -/
def liftWrite {Ctx : Type} (nullStatus : GcryErr)
    (f : Ctx → GcryErr × Ctx × Bytes) :
    Option Ctx → GcryErr × Option Ctx × Bytes
  | some c => ((f c).1, some (f c).2.1, (f c).2.2)
  | none => (nullStatus, none, [])

/-- struct LgcryptCipher: the gcrypt.Cipher userdata.  `h` is the native
cipher handle (`none` models NULL), `out` the temporary output buffer slot
(`none` models NULL). -/
structure LgcryptCipher (Ctx : Type) where
  h : Option Ctx
  out : Option Bytes
  deriving Repr, DecidableEq

/-- lgcrypt_cipher_new: fresh userdata with both fields zero-initialized. -/
def lgcrypt_cipher_new {Ctx : Type} : LgcryptCipher Ctx :=
  { h := none, out := none }

/-- Releases performed by the cipher finalizer. -/
inductive CipherRelease (Ctx : Type) where
  | closeCipher (c : Ctx)
  | freeBuffer (b : Bytes)
  deriving Repr, DecidableEq

/-- lgcrypt_cipher_open: build a fresh userdata, try the native open.  On
failure the userdata is popped (discarded, never returned) and a provider
error is raised; the error value carries the discarded state.  On success the
populated handle is returned. -/
def lgcrypt_cipher_open {Ctx : Type} (P : CipherProvider Ctx)
    (algo mode : Int) :
    Except (Err × LgcryptCipher Ctx) (LgcryptCipher Ctx) :=
  let state : LgcryptCipher Ctx := lgcrypt_cipher_new
  match P.cipher_open algo mode with
  | Except.error _ =>
      Except.error (Err.providerError "gcry_cipher_open() failed", state)
  | Except.ok c => Except.ok { state with h := some c }

/-- lgcrypt_cipher___gc: close the native handle if present, free the
temporary buffer if present.  The result lists the releases performed. -/
def lgcrypt_cipher___gc {Ctx : Type} (s : LgcryptCipher Ctx) :
    List (CipherRelease Ctx) :=
  (match s.h with
   | some c => [CipherRelease.closeCipher c]
   | none => []) ++
  (match s.out with
   | some b => [CipherRelease.freeBuffer b]
   | none => [])

/-- lgcrypt_cipher_setkey: forward to the provider, translate a non-zero
status into a ProviderError. -/
def lgcrypt_cipher_setkey {Ctx : Type} (P : CipherProvider Ctx)
    (s : LgcryptCipher Ctx) (key : Bytes) :
    Except Err Unit × LgcryptCipher Ctx :=
  let r := liftStatus P.nullStatus (fun c => P.cipher_setkey c key) s.h
  if r.1 ≠ GPG_ERR_NO_ERROR then
    (Except.error (Err.providerError "gcry_cipher_setkey() failed"),
     { s with h := r.2 })
  else
    (Except.ok (), { s with h := r.2 })

/-- lgcrypt_cipher_setiv: forward to the provider, translate a non-zero
status into a ProviderError. -/
def lgcrypt_cipher_setiv {Ctx : Type} (P : CipherProvider Ctx)
    (s : LgcryptCipher Ctx) (iv : Bytes) :
    Except Err Unit × LgcryptCipher Ctx :=
  let r := liftStatus P.nullStatus (fun c => P.cipher_setiv c iv) s.h
  if r.1 ≠ GPG_ERR_NO_ERROR then
    (Except.error (Err.providerError "gcry_cipher_setiv() failed"),
     { s with h := r.2 })
  else
    (Except.ok (), { s with h := r.2 })

/-- lgcrypt_cipher_reset: forward to the provider, translate a non-zero
status into a ProviderError. -/
def lgcrypt_cipher_reset {Ctx : Type} (P : CipherProvider Ctx)
    (s : LgcryptCipher Ctx) :
    Except Err Unit × LgcryptCipher Ctx :=
  let r := liftStatus P.nullStatus P.cipher_reset s.h
  if r.1 ≠ GPG_ERR_NO_ERROR then
    (Except.error (Err.providerError "gcry_cipher_reset() failed"),
     { s with h := r.2 })
  else
    (Except.ok (), { s with h := r.2 })

/-- lgcrypt_cipher_encrypt: allocate a temporary output buffer of exactly the
input length into `state->out`; on allocation failure raise ResourceError
(the slot holds NULL); on provider failure free the buffer, clear the slot
and raise ProviderError; on success push the region contents as the result,
free the buffer and clear the slot. -/
def lgcrypt_cipher_encrypt {Ctx : Type} (P : CipherProvider Ctx)
    (alloc : Nat → Option Bytes) (s : LgcryptCipher Ctx) (inBytes : Bytes) :
    Except Err Bytes × LgcryptCipher Ctx :=
  let out_len := inBytes.length
  match alloc out_len with
  | none =>
      (Except.error (Err.resourceError "Failed to allocate memory for ciphertext"),
       { s with out := none })
  | some buf =>
      let r := liftWrite P.nullStatus (fun c => P.cipher_encrypt c inBytes) s.h
      if r.1 ≠ GPG_ERR_NO_ERROR then
        (Except.error (Err.providerError "gcry_cipher_encrypt() failed"),
         { s with h := r.2.1, out := none })
      else
        (Except.ok (overwrite buf r.2.2), { s with h := r.2.1, out := none })

/-- lgcrypt_cipher_decrypt: identical shape to encrypt, mirrored. -/
def lgcrypt_cipher_decrypt {Ctx : Type} (P : CipherProvider Ctx)
    (alloc : Nat → Option Bytes) (s : LgcryptCipher Ctx) (inBytes : Bytes) :
    Except Err Bytes × LgcryptCipher Ctx :=
  let out_len := inBytes.length
  match alloc out_len with
  | none =>
      (Except.error (Err.resourceError "Failed to allocate memory for plaintext"),
       { s with out := none })
  | some buf =>
      let r := liftWrite P.nullStatus (fun c => P.cipher_decrypt c inBytes) s.h
      if r.1 ≠ GPG_ERR_NO_ERROR then
        (Except.error (Err.providerError "gcry_cipher_decrypt() failed"),
         { s with h := r.2.1, out := none })
      else
        (Except.ok (overwrite buf r.2.2), { s with h := r.2.1, out := none })

/-- struct LgcryptHash: the gcrypt.Hash userdata; only the native handle. -/
structure LgcryptHash (Hctx : Type) where
  h : Option Hctx
  deriving Repr, DecidableEq

/-- lgcrypt_hash_new: fresh userdata with the handle zero-initialized. -/
def lgcrypt_hash_new {Hctx : Type} : LgcryptHash Hctx :=
  { h := none }

/-- Releases performed by the hash finalizer or (never, in the code) by the
digest-read path. -/
inductive HashRelease (Hctx : Type) where
  | closeHash (c : Hctx)
  | freeBuffer (b : Bytes)
  deriving Repr, DecidableEq

/-- lgcrypt_hash_open: build a fresh userdata, try the native open with the
optional flags argument defaulting to 0.  On failure the userdata is popped
and a provider error raised, carrying the discarded state. -/
def lgcrypt_hash_open {Hctx : Type} (P : HashProvider Hctx)
    (algo : Int) (flagsArg : Option Int) :
    Except (Err × LgcryptHash Hctx) (LgcryptHash Hctx) :=
  let flags := flagsArg.getD 0
  let state : LgcryptHash Hctx := lgcrypt_hash_new
  match P.md_open algo flags with
  | Except.error _ =>
      Except.error (Err.providerError "gcry_md_open() failed", state)
  | Except.ok c => Except.ok { state with h := some c }

/-- lgcrypt_hash___gc: close the native handle if present. -/
def lgcrypt_hash___gc {Hctx : Type} (s : LgcryptHash Hctx) :
    List (HashRelease Hctx) :=
  match s.h with
  | some c => [HashRelease.closeHash c]
  | none => []

/-- lgcrypt_hash_setkey: forward to the provider, translate a non-zero
status into a ProviderError. -/
def lgcrypt_hash_setkey {Hctx : Type} (P : HashProvider Hctx)
    (s : LgcryptHash Hctx) (key : Bytes) :
    Except Err Unit × LgcryptHash Hctx :=
  let r := liftStatus P.nullStatus (fun c => P.md_setkey c key) s.h
  if r.1 ≠ GPG_ERR_NO_ERROR then
    (Except.error (Err.providerError "gcry_md_setkey() failed"),
     { s with h := r.2 })
  else
    (Except.ok (), { s with h := r.2 })

/-- lgcrypt_hash_reset: forward to the provider; gcry_md_reset returns no
status. -/
def lgcrypt_hash_reset {Hctx : Type} (P : HashProvider Hctx)
    (s : LgcryptHash Hctx) : LgcryptHash Hctx :=
  { s with h := s.h.map P.md_reset }

/-- lgcrypt_hash_write: forward the chunk to the provider; gcry_md_write
returns no status. -/
def lgcrypt_hash_write {Hctx : Type} (P : HashProvider Hctx)
    (s : LgcryptHash Hctx) (buffer : Bytes) : LgcryptHash Hctx :=
  { s with h := s.h.map (fun c => P.md_write c buffer) }

/-- lgcrypt_hash_read: the optional algorithm argument defaults to the
handle's primary algorithm; a disabled algorithm raises a usage error; a
zero digest length or a NULL provider digest buffer raises an internal
error; otherwise the first digest_len bytes of the provider-owned buffer are
copied out.  The second component lists the releases performed by this call:
the code frees nothing on any path of this function. -/
def lgcrypt_hash_read {Hctx : Type} (P : HashProvider Hctx)
    (s : LgcryptHash Hctx) (algoArg : Option Int) :
    Except Err Bytes × List (HashRelease Hctx) :=
  let algo := algoArg.getD (P.md_get_algo s.h)
  if ¬ P.md_is_enabled s.h algo then
    (Except.error (Err.usageError "Unable to obtain digest for a disabled algorithm"), [])
  else
    let digest_len := P.md_get_algo_dlen algo
    if digest_len = 0 then
      (Except.error (Err.internalError "Invalid digest length detected"), [])
    else
      match P.md_read s.h algo with
      | none => (Except.error (Err.internalError "Failed to obtain digest"), [])
      | some digest => (Except.ok (digest.take digest_len), [])

/-- Feeding a digest handle a list of chunks through successive write calls. -/
def lgcrypt_hash_writeChunks {Hctx : Type} (P : HashProvider Hctx)
    (s : LgcryptHash Hctx) (chunks : List Bytes) : LgcryptHash Hctx :=
  chunks.foldl (fun st c => lgcrypt_hash_write P st c) s

/-- Global provider calls made by lgcrypt_init, in order. -/
inductive InitAction where
  | versionCheck
  | disableSecmem
  | markFinished
  deriving Repr, DecidableEq

/-- lgcrypt_init: if the provider's own state query
(GCRYCTL_INITIALIZATION_FINISHED_P) reports that it was already initialized,
raise a usage error; otherwise perform the version check, disable the secure
memory pool and mark the provider initialized, returning no value.  The
argument is the provider's current initialized flag; the result carries the
outcome, the provider calls performed, and the new flag. -/
def lgcrypt_init (initDone : Bool) :
    Except Err Unit × List InitAction × Bool :=
  if initDone then
    (Except.error (Err.usageError "libgcrypt was already initialized"), [], initDone)
  else
    (Except.ok (),
     [InitAction.versionCheck, InitAction.disableSecmem, InitAction.markFinished],
     true)

/-- An allocator that always succeeds, handing out zero-filled regions of the
requested size, for concrete witnesses. -/
def goodAlloc : Nat → Option Bytes :=
  fun n => some (List.replicate n 0)

/-- An allocator that always fails, for concrete witnesses. -/
def noAlloc : Nat → Option Bytes :=
  fun _ => none

/-- A concrete cipher provider whose encrypt and decrypt are the identity on
bytes, for witnesses. -/
def idCipherProvider : CipherProvider Unit where
  cipher_open := fun _ _ => Except.ok ()
  cipher_setkey := fun c _ => (GPG_ERR_NO_ERROR, c)
  cipher_setiv := fun c _ => (GPG_ERR_NO_ERROR, c)
  cipher_reset := fun c => (GPG_ERR_NO_ERROR, c)
  cipher_encrypt := fun c inp => (GPG_ERR_NO_ERROR, c, inp)
  cipher_decrypt := fun c inp => (GPG_ERR_NO_ERROR, c, inp)
  nullStatus := 1

/-- A concrete cipher provider that rejects every call, for witnesses. -/
def failCipherProvider : CipherProvider Unit where
  cipher_open := fun _ _ => Except.error 12
  cipher_setkey := fun c _ => (12, c)
  cipher_setiv := fun c _ => (12, c)
  cipher_reset := fun c => (12, c)
  cipher_encrypt := fun c _ => (12, c, [])
  cipher_decrypt := fun c _ => (12, c, [])
  nullStatus := 1

/-- A concrete hash provider that accumulates written bytes as its context
and reads them back as the digest, for witnesses. -/
def accHashProvider : HashProvider Bytes where
  md_open := fun _ _ => Except.ok []
  md_setkey := fun c _ => (GPG_ERR_NO_ERROR, c)
  md_reset := fun _ => []
  md_write := fun c b => c ++ b
  md_read := fun h _ => h
  md_get_algo := fun _ => 8
  md_is_enabled := fun _ _ => true
  md_get_algo_dlen := fun _ => 3
  nullStatus := 1

/-- A concrete hash provider that rejects open, for witnesses. -/
def failHashProvider : HashProvider Bytes where
  md_open := fun _ _ => Except.error 12
  md_setkey := fun c _ => (12, c)
  md_reset := fun c => c
  md_write := fun c _ => c
  md_read := fun _ _ => none
  md_get_algo := fun _ => 8
  md_is_enabled := fun _ _ => false
  md_get_algo_dlen := fun _ => 0
  nullStatus := 1

/-- Helper: a fixed-size region keeps its length when written to. -/
theorem overwrite_length (buf w : Bytes) : (overwrite buf w).length = buf.length := by
  simp [overwrite]
  omega

/-- Helper: a full-length write replaces the whole region. -/
theorem overwrite_eq_of_length (buf w : Bytes) (h : w.length = buf.length) :
    overwrite buf w = w := by
  unfold overwrite
  rw [h, List.drop_length, List.append_nil, ← h, List.take_length]

/-- Helper: lifted status calls never turn a handle NULL or non-NULL. -/
theorem liftStatus_isSome {Ctx : Type} (n : GcryErr) (f : Ctx → GcryErr × Ctx)
    (h : Option Ctx) : (liftStatus n f h).2.isSome = h.isSome := by
  cases h <;> rfl

/-- Helper: lifted output-writing calls never turn a handle NULL or non-NULL. -/
theorem liftWrite_isSome {Ctx : Type} (n : GcryErr) (f : Ctx → GcryErr × Ctx × Bytes)
    (h : Option Ctx) : (liftWrite n f h).2.1.isSome = h.isSome := by
  cases h <;> rfl

/-- Helper: encrypt preserves the presence of the native handle. -/
theorem encrypt_h_isSome {Ctx : Type} (P : CipherProvider Ctx)
    (alloc : Nat → Option Bytes) (s : LgcryptCipher Ctx) (inp : Bytes) :
    (lgcrypt_cipher_encrypt P alloc s inp).2.h.isSome = s.h.isSome := by
  cases halloc : alloc inp.length with
  | none => simp [lgcrypt_cipher_encrypt, halloc]
  | some buf =>
      simp only [lgcrypt_cipher_encrypt, halloc]
      split <;> simp [liftWrite_isSome]

/-- Helper: decrypt preserves the presence of the native handle. -/
theorem decrypt_h_isSome {Ctx : Type} (P : CipherProvider Ctx)
    (alloc : Nat → Option Bytes) (s : LgcryptCipher Ctx) (inp : Bytes) :
    (lgcrypt_cipher_decrypt P alloc s inp).2.h.isSome = s.h.isSome := by
  cases halloc : alloc inp.length with
  | none => simp [lgcrypt_cipher_decrypt, halloc]
  | some buf =>
      simp only [lgcrypt_cipher_decrypt, halloc]
      split <;> simp [liftWrite_isSome]

/-- Helper: the always-succeeding witness allocator returns regions of the
requested size. -/
theorem goodAlloc_wf : ∀ n b, goodAlloc n = some b → b.length = n := by
  intro n b h
  simp only [goodAlloc, Option.some.injEq] at h
  rw [← h]
  simp

/-- C2: finalization is idempotent for both handle kinds: the finalizer on a
handle whose native context and (for ciphers) pendingOutput slot are both
absent performs no release at all. -/
theorem c2_gc_idempotent :
    (∀ (Ctx : Type) (s : LgcryptCipher Ctx), s.h = none → s.out = none →
      lgcrypt_cipher___gc s = []) ∧
    (∀ (Hctx : Type) (s : LgcryptHash Hctx), s.h = none →
      lgcrypt_hash___gc s = []) := by
  constructor
  · intro Ctx s hh ho
    simp [lgcrypt_cipher___gc, hh, ho]
  · intro Hctx s hh
    simp [lgcrypt_hash___gc, hh]

theorem c2_gc_idempotent_witness :
    lgcrypt_cipher___gc (lgcrypt_cipher_new : LgcryptCipher Unit) = [] ∧
    lgcrypt_hash___gc (lgcrypt_hash_new : LgcryptHash Unit) = [] :=
  ⟨c2_gc_idempotent.1 Unit lgcrypt_cipher_new rfl rfl,
   c2_gc_idempotent.2 Unit lgcrypt_hash_new rfl⟩

/-- C3: when the provider's open fails, the partially-constructed object
(whose native-handle field is null, so its finalization is a no-op) is
discarded inside a raised ProviderError and never returned; on provider
success the constructor returns the populated handle.  Both cipher and hash
constructors. -/
theorem c3_open_failure {Ctx Hctx : Type} (P : CipherProvider Ctx)
    (Q : HashProvider Hctx) (algo mode : Int) (flagsArg : Option Int) :
    (∀ e, P.cipher_open algo mode = Except.error e →
      lgcrypt_cipher_open P algo mode =
        Except.error (Err.providerError "gcry_cipher_open() failed",
          (lgcrypt_cipher_new : LgcryptCipher Ctx)) ∧
      lgcrypt_cipher___gc (lgcrypt_cipher_new : LgcryptCipher Ctx) = []) ∧
    (∀ c, P.cipher_open algo mode = Except.ok c →
      lgcrypt_cipher_open P algo mode = Except.ok { h := some c, out := none }) ∧
    (∀ e, Q.md_open algo (flagsArg.getD 0) = Except.error e →
      lgcrypt_hash_open Q algo flagsArg =
        Except.error (Err.providerError "gcry_md_open() failed",
          (lgcrypt_hash_new : LgcryptHash Hctx)) ∧
      lgcrypt_hash___gc (lgcrypt_hash_new : LgcryptHash Hctx) = []) ∧
    (∀ c, Q.md_open algo (flagsArg.getD 0) = Except.ok c →
      lgcrypt_hash_open Q algo flagsArg = Except.ok { h := some c }) := by
  refine ⟨?_, ?_, ?_, ?_⟩ <;> intro x hx <;>
    simp [lgcrypt_cipher_open, lgcrypt_hash_open, lgcrypt_cipher_new,
      lgcrypt_hash_new, lgcrypt_cipher___gc, lgcrypt_hash___gc, hx]

theorem c3_open_failure_witness :
    (lgcrypt_cipher_open failCipherProvider 1 2 =
      Except.error (Err.providerError "gcry_cipher_open() failed",
        (lgcrypt_cipher_new : LgcryptCipher Unit))) ∧
    (lgcrypt_cipher_open idCipherProvider 1 2 =
      Except.ok { h := some (), out := none }) ∧
    (lgcrypt_hash_open failHashProvider 8 none =
      Except.error (Err.providerError "gcry_md_open() failed",
        (lgcrypt_hash_new : LgcryptHash Bytes))) ∧
    (lgcrypt_hash_open accHashProvider 8 none = Except.ok { h := some [] }) :=
  ⟨((c3_open_failure failCipherProvider failHashProvider 1 2 none).1 12 rfl).1,
   (c3_open_failure idCipherProvider accHashProvider 1 2 none).2.1 () rfl,
   ((c3_open_failure idCipherProvider failHashProvider 8 0 none).2.2.1 12 rfl).1,
   (c3_open_failure idCipherProvider accHashProvider 8 0 none).2.2.2 [] rfl⟩

/-- C6: init raises a UsageError when the provider reports it was already
initialized; otherwise it performs, in order, the version check, the
disabling of the secure-memory pool and the marking of initialization as
complete, and returns no value. -/
theorem c6_init_once :
    lgcrypt_init true =
      (Except.error (Err.usageError "libgcrypt was already initialized"), [], true) ∧
    lgcrypt_init false =
      (Except.ok (),
       [InitAction.versionCheck, InitAction.disableSecmem, InitAction.markFinished],
       true) := by
  constructor <;> rfl

/-- C1: for every call to cipher encrypt or decrypt, the temporary output
buffer is released on every exit path: whenever control returns, the
pendingOutput slot is absent and the native handle is as present as before;
on allocation failure a ResourceError is raised with no buffer retained; on
provider-reported failure (after a successful allocation) a ProviderError is
raised and no ciphertext/plaintext is produced. -/
theorem c1_buffer_release {Ctx : Type} (P : CipherProvider Ctx)
    (alloc : Nat → Option Bytes) (s : LgcryptCipher Ctx) (inp : Bytes) :
    ((lgcrypt_cipher_encrypt P alloc s inp).2.out = none ∧
     (lgcrypt_cipher_encrypt P alloc s inp).2.h.isSome = s.h.isSome ∧
     (alloc inp.length = none →
       lgcrypt_cipher_encrypt P alloc s inp =
         (Except.error (Err.resourceError "Failed to allocate memory for ciphertext"),
          { s with out := none })) ∧
     (∀ buf, alloc inp.length = some buf →
       (liftWrite P.nullStatus (fun c => P.cipher_encrypt c inp) s.h).1 ≠ GPG_ERR_NO_ERROR →
       (lgcrypt_cipher_encrypt P alloc s inp).1 =
         Except.error (Err.providerError "gcry_cipher_encrypt() failed"))) ∧
    ((lgcrypt_cipher_decrypt P alloc s inp).2.out = none ∧
     (lgcrypt_cipher_decrypt P alloc s inp).2.h.isSome = s.h.isSome ∧
     (alloc inp.length = none →
       lgcrypt_cipher_decrypt P alloc s inp =
         (Except.error (Err.resourceError "Failed to allocate memory for plaintext"),
          { s with out := none })) ∧
     (∀ buf, alloc inp.length = some buf →
       (liftWrite P.nullStatus (fun c => P.cipher_decrypt c inp) s.h).1 ≠ GPG_ERR_NO_ERROR →
       (lgcrypt_cipher_decrypt P alloc s inp).1 =
         Except.error (Err.providerError "gcry_cipher_decrypt() failed"))) := by
  constructor
  all_goals refine ⟨?_, ?_, ?_, ?_⟩
  · cases halloc : alloc inp.length with
    | none => simp [lgcrypt_cipher_encrypt, halloc]
    | some buf =>
        simp only [lgcrypt_cipher_encrypt, halloc]
        split <;> rfl
  · exact encrypt_h_isSome P alloc s inp
  · intro halloc
    simp [lgcrypt_cipher_encrypt, halloc]
  · intro buf halloc hst
    simp [lgcrypt_cipher_encrypt, halloc, hst]
  · cases halloc : alloc inp.length with
    | none => simp [lgcrypt_cipher_decrypt, halloc]
    | some buf =>
        simp only [lgcrypt_cipher_decrypt, halloc]
        split <;> rfl
  · exact decrypt_h_isSome P alloc s inp
  · intro halloc
    simp [lgcrypt_cipher_decrypt, halloc]
  · intro buf halloc hst
    simp [lgcrypt_cipher_decrypt, halloc, hst]

theorem c1_buffer_release_witness :
    ((lgcrypt_cipher_encrypt idCipherProvider noAlloc ⟨some (), none⟩ [1]).2.out = none) ∧
    (lgcrypt_cipher_encrypt idCipherProvider noAlloc ⟨some (), none⟩ [1] =
      (Except.error (Err.resourceError "Failed to allocate memory for ciphertext"),
       ⟨some (), none⟩)) ∧
    ((lgcrypt_cipher_encrypt failCipherProvider goodAlloc ⟨some (), none⟩ [1]).1 =
      Except.error (Err.providerError "gcry_cipher_encrypt() failed")) ∧
    ((lgcrypt_cipher_decrypt failCipherProvider goodAlloc ⟨some (), none⟩ [1]).1 =
      Except.error (Err.providerError "gcry_cipher_decrypt() failed")) :=
  ⟨(c1_buffer_release idCipherProvider noAlloc ⟨some (), none⟩ [1]).1.1,
   (c1_buffer_release idCipherProvider noAlloc ⟨some (), none⟩ [1]).1.2.2.1 rfl,
   (c1_buffer_release failCipherProvider goodAlloc ⟨some (), none⟩ [1]).1.2.2.2
     (List.replicate 1 0) rfl (by decide),
   (c1_buffer_release failCipherProvider goodAlloc ⟨some (), none⟩ [1]).2.2.2.2
     (List.replicate 1 0) rfl (by decide)⟩

/-- C4: a successful encrypt returns a ciphertext exactly as long as the
plaintext, and a successful decrypt a plaintext exactly as long as the
ciphertext: the layer allocates the output buffer at exactly the input
length and performs no padding.  The allocator hypothesis states that the
allocator hands out regions of the requested size (C malloc contract). -/
theorem c4_output_length {Ctx : Type} (P : CipherProvider Ctx)
    (alloc : Nat → Option Bytes) (s : LgcryptCipher Ctx) (inp r : Bytes)
    (halloc : ∀ n b, alloc n = some b → b.length = n) :
    ((lgcrypt_cipher_encrypt P alloc s inp).1 = Except.ok r →
      r.length = inp.length) ∧
    ((lgcrypt_cipher_decrypt P alloc s inp).1 = Except.ok r →
      r.length = inp.length) := by
  constructor
  · intro hok
    cases hb : alloc inp.length with
    | none => simp [lgcrypt_cipher_encrypt, hb] at hok
    | some buf =>
        simp only [lgcrypt_cipher_encrypt, hb] at hok
        rcases h : (liftWrite P.nullStatus (fun c => P.cipher_encrypt c inp) s.h) with ⟨st, h2, w⟩
        rw [h] at hok
        by_cases hz : st ≠ GPG_ERR_NO_ERROR
        · simp [hz] at hok
        · simp [hz] at hok
          rw [← hok, overwrite_length]
          exact halloc _ _ hb
  · intro hok
    cases hb : alloc inp.length with
    | none => simp [lgcrypt_cipher_decrypt, hb] at hok
    | some buf =>
        simp only [lgcrypt_cipher_decrypt, hb] at hok
        rcases h : (liftWrite P.nullStatus (fun c => P.cipher_decrypt c inp) s.h) with ⟨st, h2, w⟩
        rw [h] at hok
        by_cases hz : st ≠ GPG_ERR_NO_ERROR
        · simp [hz] at hok
        · simp [hz] at hok
          rw [← hok, overwrite_length]
          exact halloc _ _ hb

theorem c4_output_length_witness :
    (∀ n b, goodAlloc n = some b → b.length = n) ∧
    ((lgcrypt_cipher_encrypt idCipherProvider goodAlloc ⟨some (), none⟩ [5, 6]).1 =
      Except.ok [5, 6]) ∧
    ([5, 6] : Bytes).length = ([5, 6] : Bytes).length :=
  ⟨goodAlloc_wf, rfl,
   (c4_output_length idCipherProvider goodAlloc ⟨some (), none⟩ [5, 6] [5, 6]
     goodAlloc_wf).1 rfl⟩

/-- C9: every handle returned by an open has a non-null native context, and
no script-callable method turns the native-context field null (or non-null):
its presence is exactly preserved by setkey, setiv, reset, encrypt, decrypt,
hash setkey, hash reset and hash write; only the finalizer releases the
context. -/
theorem c9_handle_invariant :
    (∀ (Ctx : Type) (P : CipherProvider Ctx) (algo mode : Int)
       (st : LgcryptCipher Ctx),
      lgcrypt_cipher_open P algo mode = Except.ok st → st.h.isSome = true) ∧
    (∀ (Hctx : Type) (P : HashProvider Hctx) (algo : Int) (fl : Option Int)
       (st : LgcryptHash Hctx),
      lgcrypt_hash_open P algo fl = Except.ok st → st.h.isSome = true) ∧
    (∀ (Ctx : Type) (P : CipherProvider Ctx) (s : LgcryptCipher Ctx) (b : Bytes),
      (lgcrypt_cipher_setkey P s b).2.h.isSome = s.h.isSome ∧
      (lgcrypt_cipher_setiv P s b).2.h.isSome = s.h.isSome ∧
      (lgcrypt_cipher_reset P s).2.h.isSome = s.h.isSome) ∧
    (∀ (Ctx : Type) (P : CipherProvider Ctx) (alloc : Nat → Option Bytes)
       (s : LgcryptCipher Ctx) (b : Bytes),
      (lgcrypt_cipher_encrypt P alloc s b).2.h.isSome = s.h.isSome ∧
      (lgcrypt_cipher_decrypt P alloc s b).2.h.isSome = s.h.isSome) ∧
    (∀ (Hctx : Type) (P : HashProvider Hctx) (s : LgcryptHash Hctx) (b : Bytes),
      (lgcrypt_hash_setkey P s b).2.h.isSome = s.h.isSome ∧
      (lgcrypt_hash_reset P s).h.isSome = s.h.isSome ∧
      (lgcrypt_hash_write P s b).h.isSome = s.h.isSome) := by
  refine ⟨?_, ?_, ?_, ?_, ?_⟩
  · intro Ctx P algo mode st hok
    cases hopen : P.cipher_open algo mode with
    | error e => simp [lgcrypt_cipher_open, hopen] at hok
    | ok c =>
        simp [lgcrypt_cipher_open, hopen] at hok
        rw [← hok]
        rfl
  · intro Hctx P algo fl st hok
    cases hopen : P.md_open algo (fl.getD 0) with
    | error e => simp [lgcrypt_hash_open, hopen] at hok
    | ok c =>
        simp [lgcrypt_hash_open, hopen] at hok
        rw [← hok]
        rfl
  · intro Ctx P s b
    refine ⟨?_, ?_, ?_⟩ <;>
      (first
        | (simp only [lgcrypt_cipher_setkey]; split <;> simp [liftStatus_isSome]
           )
        | (simp only [lgcrypt_cipher_setiv]; split <;> simp [liftStatus_isSome]
           )
        | (simp only [lgcrypt_cipher_reset]; split <;> simp [liftStatus_isSome]
           ))
  · intro Ctx P alloc s b
    exact ⟨encrypt_h_isSome P alloc s b, decrypt_h_isSome P alloc s b⟩
  · intro Hctx P s b
    refine ⟨?_, ?_, ?_⟩
    · simp only [lgcrypt_hash_setkey]
      split <;> simp [liftStatus_isSome]
    · cases hh : s.h <;> simp [lgcrypt_hash_reset, hh]
    · cases hh : s.h <;> simp [lgcrypt_hash_write, hh]

theorem c9_handle_invariant_witness :
    ((Except.ok ({ h := some (), out := none } : LgcryptCipher Unit) =
        lgcrypt_cipher_open idCipherProvider 1 2 →
      (({ h := some (), out := none } : LgcryptCipher Unit)).h.isSome = true)) ∧
    ((lgcrypt_cipher_setkey idCipherProvider ⟨some (), none⟩ []).2.h.isSome =
      (some () : Option Unit).isSome) :=
  ⟨fun h => c9_handle_invariant.1 Unit idCipherProvider 1 2 _ h.symm,
   (c9_handle_invariant.2.2.1 Unit idCipherProvider ⟨some (), none⟩ []).1⟩

/-- C10: encrypt and decrypt allocate a buffer of exactly the input length
even for the empty input; with an allocator whose size-zero convention is to
return null, encrypt/decrypt of the empty string raises a ResourceError
instead of returning the empty string, while with an allocator returning a
(zero-length) region and a provider that accepts the empty input they return
the empty string. -/
theorem c10_empty_input {Ctx : Type} (P : CipherProvider Ctx)
    (s : LgcryptCipher Ctx) (alloc1 alloc2 : Nat → Option Bytes)
    (h1 : alloc1 0 = none) (h2 : alloc2 0 = some []) :
    (lgcrypt_cipher_encrypt P alloc1 s [] =
      (Except.error (Err.resourceError "Failed to allocate memory for ciphertext"),
       { s with out := none })) ∧
    (lgcrypt_cipher_decrypt P alloc1 s [] =
      (Except.error (Err.resourceError "Failed to allocate memory for plaintext"),
       { s with out := none })) ∧
    ((liftWrite P.nullStatus (fun c => P.cipher_encrypt c []) s.h).1 = GPG_ERR_NO_ERROR →
      (lgcrypt_cipher_encrypt P alloc2 s []).1 = Except.ok []) ∧
    ((liftWrite P.nullStatus (fun c => P.cipher_decrypt c []) s.h).1 = GPG_ERR_NO_ERROR →
      (lgcrypt_cipher_decrypt P alloc2 s []).1 = Except.ok []) := by
  refine ⟨?_, ?_, ?_, ?_⟩
  · simp [lgcrypt_cipher_encrypt, h1]
  · simp [lgcrypt_cipher_decrypt, h1]
  · intro hst
    simp [lgcrypt_cipher_encrypt, h2, hst, overwrite]
  · intro hst
    simp [lgcrypt_cipher_decrypt, h2, hst, overwrite]

theorem c10_empty_input_witness :
    (lgcrypt_cipher_encrypt idCipherProvider noAlloc ⟨some (), none⟩ [] =
      (Except.error (Err.resourceError "Failed to allocate memory for ciphertext"),
       ⟨some (), none⟩)) ∧
    ((lgcrypt_cipher_encrypt idCipherProvider goodAlloc ⟨some (), none⟩ []).1 =
      Except.ok []) :=
  ⟨(c10_empty_input idCipherProvider ⟨some (), none⟩ noAlloc goodAlloc rfl rfl).1,
   (c10_empty_input idCipherProvider ⟨some (), none⟩ noAlloc goodAlloc rfl rfl).2.2.1 rfl⟩

/-- C5: digest read defaults its algorithm argument to the handle's primary
algorithm; it raises a UsageError on a disabled algorithm, an InternalError
on a zero provider digest length or a null provider digest buffer, and
otherwise returns a copy of the first digest-length bytes of the
provider-owned buffer (of the algorithm's fixed output length whenever the
provider buffer is at least that long) while freeing nothing on any path. -/
theorem c5_hash_read {Hctx : Type} (P : HashProvider Hctx)
    (s : LgcryptHash Hctx) (algoArg : Option Int) :
    (lgcrypt_hash_read P s none = lgcrypt_hash_read P s (some (P.md_get_algo s.h))) ∧
    ((lgcrypt_hash_read P s algoArg).2 = []) ∧
    (P.md_is_enabled s.h (algoArg.getD (P.md_get_algo s.h)) = false →
      (lgcrypt_hash_read P s algoArg).1 =
        Except.error (Err.usageError "Unable to obtain digest for a disabled algorithm")) ∧
    (P.md_is_enabled s.h (algoArg.getD (P.md_get_algo s.h)) = true →
      P.md_get_algo_dlen (algoArg.getD (P.md_get_algo s.h)) = 0 →
      (lgcrypt_hash_read P s algoArg).1 =
        Except.error (Err.internalError "Invalid digest length detected")) ∧
    (P.md_is_enabled s.h (algoArg.getD (P.md_get_algo s.h)) = true →
      P.md_get_algo_dlen (algoArg.getD (P.md_get_algo s.h)) ≠ 0 →
      P.md_read s.h (algoArg.getD (P.md_get_algo s.h)) = none →
      (lgcrypt_hash_read P s algoArg).1 =
        Except.error (Err.internalError "Failed to obtain digest")) ∧
    (∀ digest,
      P.md_is_enabled s.h (algoArg.getD (P.md_get_algo s.h)) = true →
      P.md_get_algo_dlen (algoArg.getD (P.md_get_algo s.h)) ≠ 0 →
      P.md_read s.h (algoArg.getD (P.md_get_algo s.h)) = some digest →
      (lgcrypt_hash_read P s algoArg).1 =
        Except.ok (digest.take (P.md_get_algo_dlen (algoArg.getD (P.md_get_algo s.h)))) ∧
      (P.md_get_algo_dlen (algoArg.getD (P.md_get_algo s.h)) ≤ digest.length →
        (digest.take (P.md_get_algo_dlen (algoArg.getD (P.md_get_algo s.h)))).length =
          P.md_get_algo_dlen (algoArg.getD (P.md_get_algo s.h)))) := by
  refine ⟨rfl, ?_, ?_, ?_, ?_, ?_⟩
  · simp only [lgcrypt_hash_read]
    split
    · rfl
    · split
      · rfl
      · split <;> rfl
  · intro hdis
    simp [lgcrypt_hash_read, hdis]
  · intro hen hz
    simp [lgcrypt_hash_read, hen, hz]
  · intro hen hz hread
    simp [lgcrypt_hash_read, hen, hz, hread]
  · intro digest hen hz hread
    refine ⟨?_, ?_⟩
    · simp [lgcrypt_hash_read, hen, hz, hread]
    · intro hle
      simp [List.length_take]
      omega

theorem c5_hash_read_witness :
    (lgcrypt_hash_read accHashProvider ⟨some [1, 2, 3, 4]⟩ none =
      lgcrypt_hash_read accHashProvider ⟨some [1, 2, 3, 4]⟩ (some 8)) ∧
    ((lgcrypt_hash_read accHashProvider ⟨some [1, 2, 3, 4]⟩ none).1 =
      Except.ok [1, 2, 3]) ∧
    ((lgcrypt_hash_read accHashProvider ⟨some [1, 2, 3, 4]⟩ none).2 = []) ∧
    (([1, 2, 3, 4] : Bytes).take 3).length = 3 :=
  ⟨(c5_hash_read accHashProvider ⟨some [1, 2, 3, 4]⟩ none).1,
   ((c5_hash_read accHashProvider ⟨some [1, 2, 3, 4]⟩ none).2.2.2.2.2
     [1, 2, 3, 4] rfl (by decide) rfl).1,
   (c5_hash_read accHashProvider ⟨some [1, 2, 3, 4]⟩ none).2.1,
   ((c5_hash_read accHashProvider ⟨some [1, 2, 3, 4]⟩ none).2.2.2.2.2
     [1, 2, 3, 4] rfl (by decide) rfl).2 (by decide)⟩

/-- C7: cipher round-trip through the binding.  The cryptographic provider
is external to the repository, so its round-trip property (which holds for
the supported configurations exactly when the key and IV have the correct
lengths and the plaintext length is a multiple of the block size) enters as
hypotheses on the provider calls; the theorem shows the binding preserves
it: after a successful open, setkey and setiv, the wrapper's decrypt of the
wrapper's encrypt of p returns exactly p. -/
theorem c7_roundtrip {Ctx : Type} (P : CipherProvider Ctx)
    (alloc : Nat → Option Bytes) (algo mode : Int)
    (c0 c1 c2 c3 c4 : Ctx) (k v p cbytes buf1 buf2 : Bytes)
    (hopen : P.cipher_open algo mode = Except.ok c0)
    (hkey : P.cipher_setkey c0 k = (GPG_ERR_NO_ERROR, c1))
    (hiv : P.cipher_setiv c1 v = (GPG_ERR_NO_ERROR, c2))
    (henc : P.cipher_encrypt c2 p = (GPG_ERR_NO_ERROR, c3, cbytes))
    (hclen : cbytes.length = p.length)
    (hdec : P.cipher_decrypt c3 cbytes = (GPG_ERR_NO_ERROR, c4, p))
    (ha1 : alloc p.length = some buf1) (hb1 : buf1.length = p.length)
    (ha2 : alloc cbytes.length = some buf2) (hb2 : buf2.length = cbytes.length) :
    ∃ st1 st2 st3 st4 : LgcryptCipher Ctx,
      lgcrypt_cipher_open P algo mode = Except.ok st1 ∧
      lgcrypt_cipher_setkey P st1 k = (Except.ok (), st2) ∧
      lgcrypt_cipher_setiv P st2 v = (Except.ok (), st3) ∧
      lgcrypt_cipher_encrypt P alloc st3 p = (Except.ok cbytes, st4) ∧
      (lgcrypt_cipher_decrypt P alloc st4 cbytes).1 = Except.ok p := by
  refine ⟨⟨some c0, none⟩, ⟨some c1, none⟩, ⟨some c2, none⟩, ⟨some c3, none⟩,
    ?_, ?_, ?_, ?_, ?_⟩
  · simp [lgcrypt_cipher_open, hopen, lgcrypt_cipher_new]
  · simp [lgcrypt_cipher_setkey, liftStatus, hkey, GPG_ERR_NO_ERROR]
  · simp [lgcrypt_cipher_setiv, liftStatus, hiv, GPG_ERR_NO_ERROR]
  · have hover : overwrite buf1 cbytes = cbytes :=
      overwrite_eq_of_length buf1 cbytes (hclen.trans hb1.symm)
    simp [lgcrypt_cipher_encrypt, ha1, liftWrite, henc, GPG_ERR_NO_ERROR, hover]
  · have hover : overwrite buf2 p = p :=
      overwrite_eq_of_length buf2 p (by rw [hb2, hclen])
    simp [lgcrypt_cipher_decrypt, ha2, liftWrite, hdec, GPG_ERR_NO_ERROR, hover]

theorem c7_roundtrip_witness :
    ∃ st1 st2 st3 st4 : LgcryptCipher Unit,
      lgcrypt_cipher_open idCipherProvider 1 2 = Except.ok st1 ∧
      lgcrypt_cipher_setkey idCipherProvider st1 [0] = (Except.ok (), st2) ∧
      lgcrypt_cipher_setiv idCipherProvider st2 [0] = (Except.ok (), st3) ∧
      lgcrypt_cipher_encrypt idCipherProvider goodAlloc st3 [1, 2, 3] =
        (Except.ok [1, 2, 3], st4) ∧
      (lgcrypt_cipher_decrypt idCipherProvider goodAlloc st4 [1, 2, 3]).1 =
        Except.ok [1, 2, 3] :=
  c7_roundtrip idCipherProvider goodAlloc 1 2 () () () () ()
    [0] [0] [1, 2, 3] [1, 2, 3] [0, 0, 0] [0, 0, 0]
    rfl rfl rfl rfl rfl rfl rfl rfl rfl rfl

/-- Helper: feeding chunks one write at a time accumulates exactly their
concatenation in the provider context, for a provider whose write is a
stream homomorphism. -/
theorem writeChunks_some {Hctx : Type} (P : HashProvider Hctx)
    (happ : ∀ c a b, P.md_write (P.md_write c a) b = P.md_write c (a ++ b))
    (hnil : ∀ c, P.md_write c [] = c)
    (c : Hctx) (chunks : List Bytes) :
    lgcrypt_hash_writeChunks P ⟨some c⟩ chunks =
      ⟨some (P.md_write c chunks.flatten)⟩ := by
  induction chunks generalizing c with
  | nil => simp [lgcrypt_hash_writeChunks, hnil]
  | cons ch t ih =>
      have hstep : lgcrypt_hash_write P ⟨some c⟩ ch = ⟨some (P.md_write c ch)⟩ := by
        simp [lgcrypt_hash_write]
      calc lgcrypt_hash_writeChunks P ⟨some c⟩ (ch :: t)
          = lgcrypt_hash_writeChunks P (lgcrypt_hash_write P ⟨some c⟩ ch) t := rfl
        _ = lgcrypt_hash_writeChunks P ⟨some (P.md_write c ch)⟩ t := by rw [hstep]
        _ = ⟨some (P.md_write (P.md_write c ch) t.flatten)⟩ := ih (P.md_write c ch)
        _ = ⟨some (P.md_write c (ch :: t).flatten)⟩ := by rw [happ]; rfl

/-- C8: digest determinism: two hash handles opened with the same algorithm
and flags, each fed the same byte sequence d through write calls with any
chunking of d, yield identical read output.  The provider's write is
modelled abstractly; its stream-homomorphism property (writing is append on
the accumulated message) enters as hypotheses since the provider is external
to the repository. -/
theorem c8_digest_determinism {Hctx : Type} (P : HashProvider Hctx)
    (algo : Int) (flagsArg : Option Int) (st1 st2 : LgcryptHash Hctx)
    (happ : ∀ c a b, P.md_write (P.md_write c a) b = P.md_write c (a ++ b))
    (hnil : ∀ c, P.md_write c [] = c)
    (hopen1 : lgcrypt_hash_open P algo flagsArg = Except.ok st1)
    (hopen2 : lgcrypt_hash_open P algo flagsArg = Except.ok st2)
    (chunks1 chunks2 : List Bytes) (d : Bytes)
    (h1 : chunks1.flatten = d) (h2 : chunks2.flatten = d) (a : Option Int) :
    lgcrypt_hash_read P (lgcrypt_hash_writeChunks P st1 chunks1) a =
      lgcrypt_hash_read P (lgcrypt_hash_writeChunks P st2 chunks2) a := by
  have hst : st1 = st2 := by
    rw [hopen1] at hopen2
    exact Except.ok.inj hopen2
  subst hst
  cases hr : P.md_open algo (flagsArg.getD 0) with
  | error e => simp [lgcrypt_hash_open, hr] at hopen1
  | ok c0 =>
      simp [lgcrypt_hash_open, hr, lgcrypt_hash_new] at hopen1
      have hs : st1 = ⟨some c0⟩ := by
        cases st1
        simp_all
      subst hs
      rw [writeChunks_some P happ hnil c0 chunks1,
        writeChunks_some P happ hnil c0 chunks2, h1, h2]

theorem c8_digest_determinism_witness :
    lgcrypt_hash_read accHashProvider
        (lgcrypt_hash_writeChunks accHashProvider ⟨some []⟩ [[1], [2, 3]]) none =
      lgcrypt_hash_read accHashProvider
        (lgcrypt_hash_writeChunks accHashProvider ⟨some []⟩ [[1, 2, 3]]) none :=
  c8_digest_determinism accHashProvider 8 none ⟨some []⟩ ⟨some []⟩
    (fun c a b => (List.append_assoc c a b))
    (fun c => List.append_nil c)
    rfl rfl [[1], [2, 3]] [[1, 2, 3]] [1, 2, 3] rfl rfl none

end Luagcrypt
